import Mathlib

/-!
Verification development for the finance-tracker statement-parsing and
categorization engine.  Python strings are embedded as `List Char`; Python
floats that only ever hold two-decimal currency values are embedded as `ℚ`
(exact for every value these claims mention); Python dicts are embedded as
association lists in insertion order (Python dicts iterate in insertion
order); fallible parses return `Option`.  Each definition is translated
from the corresponding function of `src/main.py` or `src/api.py`; the
source location is given in its doc comment.
-/

abbrev Str := List Char

/-- Python `\s` / `str.strip` whitespace, restricted to the ASCII whitespace
that can occur in extracted PDF text lines. -/
def isSpaceC (c : Char) : Bool := c = ' ' ∨ c = '\t' ∨ c = '\n' ∨ c = '\r'

/-- Python `\d` (ASCII decimal digit). -/
def isDigitC (c : Char) : Bool := c.isDigit

/-- Python `\w` word character: letter, digit or underscore (ASCII). -/
def isWordC (c : Char) : Bool := c.isAlphanum ∨ c = '_'

/-- Python `str.lower`. -/
def toLowerL (l : Str) : Str := l.map Char.toLower

/-- Python `str.strip`. -/
def stripL (l : Str) : Str :=
  ((l.dropWhile isSpaceC).reverse.dropWhile isSpaceC).reverse

/-- Python `needle in hay` substring containment (empty needle matches). -/
def containsSub : Str → Str → Bool
  | hay, needle =>
    match hay with
    | [] => needle.isEmpty
    | _ :: t => needle.isPrefixOf hay || containsSub t needle

/-- Helper for `splitWS`: accumulates the current (reversed) word. -/
def splitWSGo : Str → Str → List Str
  | [], acc => if acc.isEmpty then [] else [acc.reverse]
  | c :: t, acc =>
    if isSpaceC c then
      if acc.isEmpty then splitWSGo t [] else acc.reverse :: splitWSGo t []
    else splitWSGo t (c :: acc)

/-- Python `str.split()` with no argument: split on whitespace runs,
dropping empty fragments. -/
def splitWS (l : Str) : List Str := splitWSGo l []

/-- Helper for `wordTokens`. -/
def wordTokensGo : Str → Str → List Str
  | [], acc => if acc.isEmpty then [] else [acc.reverse]
  | c :: t, acc =>
    if isWordC c then wordTokensGo t (c :: acc)
    else if acc.isEmpty then wordTokensGo t [] else acc.reverse :: wordTokensGo t []

/-- Python `re.findall(r'\w+', s)`: the maximal word-character runs. -/
def wordTokens (l : Str) : List Str := wordTokensGo l []

/-- Python `' '.join(ws)`. -/
def joinSpace : List Str → Str
  | [] => []
  | [w] => w
  | w :: x :: ws => w ++ ' ' :: joinSpace (x :: ws)

/-- Python `' '.join(s.split())`: collapse internal whitespace, strip ends. -/
def normWS (l : Str) : Str := joinSpace (splitWS l)

/-- Numeric value of a digit string (most significant first). -/
def digitsToNat (l : Str) : Nat :=
  l.foldl (fun a c => 10 * a + (c.toNat - '0'.toNat)) 0

/-- Value of `float(intPart.replace(",", "") + "." + frac)` where `frac` has
exactly two digits: commas are dropped from the integer part. -/
def moneyVal (intPart frac : Str) : ℚ :=
  mkRat (digitsToNat (intPart.filter isDigitC) * 100 + digitsToNat frac) 100

/-- Python `abs`, written so that it evaluates by kernel reduction. -/
def absQ (q : ℚ) : ℚ := if q < 0 then -q else q

theorem absQ_nonneg (q : ℚ) : 0 ≤ absQ q := by
  unfold absQ
  split
  · linarith
  · linarith

-- String constants used by the embedded functions.
def kCredit : Str := "Credit".toList
def kDebit : Str := "Debit".toList
def kUncategorized : Str := "Uncategorized".toList
def kRewards : Str := "rewards".toList
def kRebate : Str := "rebate".toList
def kRefund : Str := "refund".toList
def kReclaim : Str := "e-transfer reclaim".toList
def kPaydirect : Str := "e-transfer paydirect".toList
def kRetail : Str := "retail".toList
def kDebitKw : Str := "debit".toList
def kPurchase : Str := "purchase".toList
def kFulfill : Str := "fulfill request".toList
def kETransfer : Str := "e-transfer".toList
def kBill : Str := "bill".toList
def kCharge : Str := "charge".toList
def kPetro : Str := "petro".toList
def kService : Str := "service".toList
def kWithdrawal : Str := "withdrawal".toList

/-- Credit-indicating keywords of `classify_transaction_type`
(`src/main.py:113-126`). -/
def credit_keywords : List Str := [kRewards, kRebate, kRefund, kReclaim, kPaydirect]

/-- Debit-indicating keywords of `classify_transaction_type`
(`src/main.py:113-126`). -/
def debit_keywords : List Str :=
  [kRetail, kDebitKw, kPurchase, kFulfill, kETransfer, kBill, kCharge, kPetro,
   kService, kWithdrawal]

/-- `classify_transaction_type` (`src/main.py:113-126`): credit keywords win
immediately; else debit keywords; else Credit. -/
def classify_transaction_type (details : Str) : Str :=
  if credit_keywords.any (fun k => containsSub (toLowerL details) k) then kCredit
  else if debit_keywords.any (fun k => containsSub (toLowerL details) k) then kDebit
  else kCredit

/-- `select_most_reliable_balance` (`src/main.py:976-995`).  Python floats
holding two-decimal currency values are embedded as `ℚ`. -/
def select_most_reliable_balance (ocr_balance regular_balance : ℚ) : ℚ :=
  if 0 < ocr_balance ∧ 0 < regular_balance then
    if |ocr_balance - regular_balance| < 1 / 100 then ocr_balance
    else regular_balance
  else if 0 < ocr_balance then ocr_balance
  else if 0 < regular_balance then regular_balance
  else 0

/-- The discrepancy warning surfaced by `parse_pdf_transactions`
(`src/main.py:957-966`): nested inside the `selected balance > 0` check, it
fires when the two candidates differ by more than one cent and both are
positive. -/
def discrepancy_warned (ocr_balance regular_balance : ℚ) : Bool :=
  if 0 < select_most_reliable_balance ocr_balance regular_balance then
    if 1 / 100 < |ocr_balance - regular_balance| ∧ 0 < ocr_balance ∧ 0 < regular_balance
    then true else false
  else false

/-- **C5**: for every details string the classifier returns Credit
immediately if any credit-indicating keyword is present (even when a debit
keyword also matches), else Debit if any debit-indicating keyword is
present, else Credit by default. -/
theorem c5_classifier_keyword_order (details : Str) :
    (credit_keywords.any (fun k => containsSub (toLowerL details) k) = true →
      classify_transaction_type details = kCredit) ∧
    (credit_keywords.any (fun k => containsSub (toLowerL details) k) = false →
      debit_keywords.any (fun k => containsSub (toLowerL details) k) = true →
      classify_transaction_type details = kDebit) ∧
    (credit_keywords.any (fun k => containsSub (toLowerL details) k) = false →
      debit_keywords.any (fun k => containsSub (toLowerL details) k) = false →
      classify_transaction_type details = kCredit) := by
  refine ⟨fun hc => ?_, fun hc hd => ?_, fun hc hd => ?_⟩ <;>
    unfold classify_transaction_type
  · rw [if_pos hc]
  · rw [if_neg (by simp [hc]), if_pos hd]
  · rw [if_neg (by simp [hc]), if_neg (by simp [hd])]

def exRefundRetail : Str := "REFUND for retail purchase".toList
def exRetailOnly : Str := "retail interac payment".toList
def exNeither : Str := "monthly account fee".toList

/-- Witness for C5: a line matching both keyword sets classifies Credit
(refund overrides retail/purchase), a debit-only line classifies Debit, a
keyword-free line defaults to Credit. -/
theorem c5_classifier_keyword_order_witness :
    classify_transaction_type exRefundRetail = kCredit ∧
    classify_transaction_type exRetailOnly = kDebit ∧
    classify_transaction_type exNeither = kCredit :=
  ⟨(c5_classifier_keyword_order exRefundRetail).1 (by decide),
   (c5_classifier_keyword_order exRetailOnly).2.1 (by decide) (by decide),
   (c5_classifier_keyword_order exNeither).2.2 (by decide) (by decide)⟩

/-- **C2**: reconciliation of the OCR and text-pattern balance candidates
(presence is the code's `> 0` test): both present and within one cent →
either value; both present and differing by more than one cent → the
text-pattern (regular) value, with the discrepancy warning surfaced; one
present → that one; neither → 0. -/
theorem c2_balance_reconciliation (o r : ℚ) :
    (0 < o → 0 < r → |o - r| ≤ 1 / 100 →
      select_most_reliable_balance o r = o ∨ select_most_reliable_balance o r = r) ∧
    (0 < o → 0 < r → 1 / 100 < |o - r| →
      select_most_reliable_balance o r = r ∧ discrepancy_warned o r = true) ∧
    (0 < o → r ≤ 0 → select_most_reliable_balance o r = o) ∧
    (o ≤ 0 → 0 < r → select_most_reliable_balance o r = r) ∧
    (o ≤ 0 → r ≤ 0 → select_most_reliable_balance o r = 0) := by
  refine ⟨fun ho hr _ => ?_, fun ho hr hd => ?_, fun ho hr => ?_,
    fun ho hr => ?_, fun ho hr => ?_⟩
  · unfold select_most_reliable_balance
    rw [if_pos ⟨ho, hr⟩]
    by_cases h : |o - r| < 1 / 100
    · left; rw [if_pos h]
    · right; rw [if_neg h]
  · have h : ¬ |o - r| < 1 / 100 := not_lt.mpr (le_of_lt hd)
    have hsel : select_most_reliable_balance o r = r := by
      unfold select_most_reliable_balance
      rw [if_pos ⟨ho, hr⟩, if_neg h]
    refine ⟨hsel, ?_⟩
    unfold discrepancy_warned
    rw [hsel, if_pos hr, if_pos ⟨hd, ho, hr⟩]
  · have hnb : ¬ (0 < o ∧ 0 < r) := fun hab => absurd hab.2 (not_lt.mpr hr)
    unfold select_most_reliable_balance
    rw [if_neg hnb, if_pos ho]
  · have hnb : ¬ (0 < o ∧ 0 < r) := fun hab => absurd hab.1 (not_lt.mpr ho)
    unfold select_most_reliable_balance
    rw [if_neg hnb, if_neg (not_lt.mpr ho), if_pos hr]
  · have hnb : ¬ (0 < o ∧ 0 < r) := fun hab => absurd hab.1 (not_lt.mpr ho)
    unfold select_most_reliable_balance
    rw [if_neg hnb, if_neg (not_lt.mpr ho), if_neg (not_lt.mpr hr)]

/-- Witness for C2, the spec's own two examples: OCR 100.00 with text 100.00
reconciles to 100.00; OCR 100.00 with text 150.00 reconciles to 150.00 with
the discrepancy flag set. -/
theorem c2_balance_reconciliation_witness :
    (select_most_reliable_balance 100 100 = 100 ∨
      select_most_reliable_balance 100 100 = 100) ∧
    (select_most_reliable_balance 100 150 = 150 ∧
      discrepancy_warned 100 150 = true) :=
  ⟨(c2_balance_reconciliation 100 100).1 (by norm_num) (by norm_num) (by norm_num),
   (c2_balance_reconciliation 100 150).2.1 (by norm_num) (by norm_num) (by norm_num)⟩

-- ------------------------------------------------------------------
-- C9: detect_statement_format (src/main.py:243-283)
-- ------------------------------------------------------------------

def bTD : Str := "TD".toList
def bRBC : Str := "RBC".toList
def bCIBC : Str := "CIBC".toList
def bBMO : Str := "BMO".toList
def bUnknownBank : Str := "Unknown Bank".toList
def sCreditCard : Str := "Credit Card".toList
def sChequingOrSavings : Str := "Chequing or Savings".toList
def sUnknownType : Str := "Unknown Type".toList
def tTDCanadaTrust : Str := "tdcanadatrust".toList
def tTDBank : Str := "tdbank".toList
def tStatementDate : Str := "statementdate".toList
def tPrevStatement : Str := "previousstatement".toList
def tOpeningBal : Str := "openingbalance".toList
def tClosingBal : Str := "closingbalance".toList
def tRoyalBank : Str := "royalbankofcanada".toList
def tRBCRoyal : Str := "rbcroyalbank".toList
def tAccountSummary : Str := "accountsummary".toList
def tVisaAccount : Str := "visaaccount".toList
def tCIBC : Str := "cibc".toList
def tAvailableCredit : Str := "availablecredit".toList
def tAccountStatement : Str := "accountstatement".toList
def tDepositsWithdrawals : Str := "depositsandwithdrawals".toList
def tBankOfMontreal : Str := "bankofmontreal".toList
def tBMO : Str := "bmo".toList
def tBMOMastercard : Str := "bmomastercard".toList
def tCreditLimit : Str := "creditlimit".toList
def tChequingAccount : Str := "chequingaccount".toList

/-- The cleaning step of `detect_statement_format`: lowercase, then remove
space and newline characters. -/
def cleanPageText (l : Str) : Str :=
  (toLowerL l).filter (fun c => ¬ (c = ' ' ∨ c = '\n'))

/-- `detect_statement_format` (`src/main.py:243-283`), translated branch by
branch from the if/elif chain. -/
def detect_statement_format (first_page_text : Str) : Str × Str :=
  let text := cleanPageText first_page_text
  if containsSub text tTDCanadaTrust || containsSub text tTDBank then
    (bTD,
      if containsSub text tStatementDate && containsSub text tPrevStatement then
        sCreditCard
      else if containsSub text tOpeningBal && containsSub text tClosingBal then
        sChequingOrSavings
      else sUnknownType)
  else if containsSub text tRoyalBank || containsSub text tRBCRoyal then
    (bRBC,
      if containsSub text tAccountSummary && containsSub text tOpeningBal then
        sChequingOrSavings
      else if containsSub text tVisaAccount then sCreditCard
      else sUnknownType)
  else if containsSub text tCIBC then
    (bCIBC,
      if containsSub text tAccountSummary && containsSub text tAvailableCredit then
        sCreditCard
      else if containsSub text tAccountStatement || containsSub text tDepositsWithdrawals then
        sChequingOrSavings
      else sUnknownType)
  else if containsSub text tBankOfMontreal || containsSub text tBMO then
    (bBMO,
      if containsSub text tBMOMastercard || containsSub text tCreditLimit then
        sCreditCard
      else if containsSub text tAccountSummary || containsSub text tChequingAccount then
        sChequingOrSavings
      else sUnknownType)
  else (bUnknownBank, sUnknownType)

/-- Token conditions of the spec's ordered rule table (§4.1). -/
inductive TokCond where
  | tok (t : Str)
  | both (a b : TokCond)
  | either (a b : TokCond)
deriving DecidableEq

/-- Evaluate a token condition against the cleaned first-page text. -/
def evalCond (text : Str) : TokCond → Bool
  | TokCond.tok t => containsSub text t
  | TokCond.both a b => evalCond text a && evalCond text b
  | TokCond.either a b => evalCond text a || evalCond text b

/-- One row of the spec's rule table: a bank-name token condition, the bank,
and the ordered secondary type rules. -/
structure BankRule where
  cond : TokCond
  bank : Str
  typeRules : List (TokCond × Str)

/-- First matching type rule wins; no match yields the Unknown type. -/
def firstTypeRule (text : Str) : List (TokCond × Str) → Str
  | [] => sUnknownType
  | (c, ty) :: rest => if evalCond text c then ty else firstTypeRule text rest

/-- First matching bank rule wins; no match yields (Unknown, Unknown). -/
def applyBankRules (text : Str) : List BankRule → Str × Str
  | [] => (bUnknownBank, sUnknownType)
  | r :: rest =>
    if evalCond text r.cond then (r.bank, firstTypeRule text r.typeRules)
    else applyBankRules text rest

/-- The ordered rule table named by the spec: TD, RBC, CIBC, BMO, each with
its ordered statement-type rules. -/
def bankRuleTable : List BankRule :=
  [⟨TokCond.either (TokCond.tok tTDCanadaTrust) (TokCond.tok tTDBank), bTD,
    [(TokCond.both (TokCond.tok tStatementDate) (TokCond.tok tPrevStatement), sCreditCard),
     (TokCond.both (TokCond.tok tOpeningBal) (TokCond.tok tClosingBal), sChequingOrSavings)]⟩,
   ⟨TokCond.either (TokCond.tok tRoyalBank) (TokCond.tok tRBCRoyal), bRBC,
    [(TokCond.both (TokCond.tok tAccountSummary) (TokCond.tok tOpeningBal), sChequingOrSavings),
     (TokCond.tok tVisaAccount, sCreditCard)]⟩,
   ⟨TokCond.tok tCIBC, bCIBC,
    [(TokCond.both (TokCond.tok tAccountSummary) (TokCond.tok tAvailableCredit), sCreditCard),
     (TokCond.either (TokCond.tok tAccountStatement) (TokCond.tok tDepositsWithdrawals), sChequingOrSavings)]⟩,
   ⟨TokCond.either (TokCond.tok tBankOfMontreal) (TokCond.tok tBMO), bBMO,
    [(TokCond.either (TokCond.tok tBMOMastercard) (TokCond.tok tCreditLimit), sCreditCard),
     (TokCond.either (TokCond.tok tAccountSummary) (TokCond.tok tChequingAccount), sChequingOrSavings)]⟩]

/-- Modelled from the spec §4.1: format detection as evaluation of the
ordered rule table over the cleaned first-page text. -/
def spec_detect_format (first_page_text : Str) : Str × Str :=
  applyBankRules (cleanPageText first_page_text) bankRuleTable

/-- **C9**: format detection is exactly first-match evaluation of the
ordered rule table (TD, RBC, CIBC, BMO; within a bank the first matching
type rule; Unknown type when only the bank matches; (Unknown, Unknown) when
no bank matches). -/
theorem c9_format_detection_rule_table (first_page_text : Str) :
    detect_statement_format first_page_text = spec_detect_format first_page_text := by
  rfl

-- ------------------------------------------------------------------
-- C1 / C8: categorize_transaction (src/main.py:998-1027, src/api.py:95-133)
-- ------------------------------------------------------------------

/-- A Python dict key: a string, or a non-string value (whose content the
categorizers never inspect). -/
inductive PyKey where
  | pstr (s : Str)
  | nonstr
deriving DecidableEq

/-- A vendor mapping: association list in Python-dict insertion order. -/
abbrev VMap := List (PyKey × Str)

def kSentinel : Str := "__custom_categories__".toList

/-- An entry the categorizers may actually use: a string key other than the
reserved sentinel. -/
def validEntry : PyKey × Str → Bool
  | (PyKey.pstr s, _) => ¬ s = kSentinel
  | (PyKey.nonstr, _) => false

/-- The digit-stripping step of the main-app categorizer: remove all digits,
then replace every character that is neither a word character nor
whitespace by a space, then collapse whitespace
(`re.sub` pair of `src/main.py:1008-1010`). -/
def mainTextOf (d : Str) : Str :=
  normWS ((d.filter (fun c => ¬ isDigitC c)).map
    (fun c => if isWordC c ∨ isSpaceC c then c else ' '))

/-- The single pass of `categorize_transaction` in `src/main.py:1012-1024`:
an entry matches if its normalized substring occurs in the normalized
details, or in the digit-stripped text, or shares any single token with the
details. -/
def mainCatLoop (d mt : Str) : VMap → Str
  | [] => kUncategorized
  | (PyKey.nonstr, _) :: rest => mainCatLoop d mt rest
  | (PyKey.pstr s, cat) :: rest =>
    if s = kSentinel then mainCatLoop d mt rest
    else
      let v := normWS (toLowerL s)
      if containsSub d v || containsSub mt v ||
          (splitWS v).any (fun w => (splitWS d).contains w) then cat
      else mainCatLoop d mt rest

/-- `categorize_transaction` of the main app (`src/main.py:998-1027`). -/
def main_categorize_transaction (details : Str) (vendor_map : VMap) : Str :=
  if details.isEmpty || vendor_map.isEmpty then kUncategorized
  else
    mainCatLoop (normWS (toLowerL details)) (mainTextOf (normWS (toLowerL details)))
      vendor_map

/-- Tier 1 of `categorize_transaction` in `src/api.py:102-108`: exact match
of the lowered vendor substring against the lowered stripped details. -/
def apiTier1 (d : Str) : VMap → Option Str
  | [] => none
  | (PyKey.nonstr, _) :: rest => apiTier1 d rest
  | (PyKey.pstr s, cat) :: rest =>
    if s = kSentinel then apiTier1 d rest
    else if toLowerL s = d then some cat else apiTier1 d rest

/-- Tier 2 of `categorize_transaction` in `src/api.py:110-117`: substring
occurrence of the lowered vendor substring in the details. -/
def apiTier2 (d : Str) : VMap → Option Str
  | [] => none
  | (PyKey.nonstr, _) :: rest => apiTier2 d rest
  | (PyKey.pstr s, cat) :: rest =>
    if s = kSentinel then apiTier2 d rest
    else if containsSub d (toLowerL s) then some cat else apiTier2 d rest

/-- Tier 3 of `categorize_transaction` in `src/api.py:119-127`: every word
token of the lowered vendor substring occurs among the details word
tokens. -/
def apiTier3 (d : Str) : VMap → Option Str
  | [] => none
  | (PyKey.nonstr, _) :: rest => apiTier3 d rest
  | (PyKey.pstr s, cat) :: rest =>
    if s = kSentinel then apiTier3 d rest
    else if (wordTokens (toLowerL s)).all (fun w => (wordTokens d).contains w) then
      some cat
    else apiTier3 d rest

/-- `categorize_transaction` of the API server (`src/api.py:95-133`): three
sequential loops, the first loop that yields a hit wins. -/
def api_categorize_transaction (details : Str) (vendor_map : VMap) : Str :=
  if details.isEmpty || vendor_map.isEmpty then kUncategorized
  else
    let d := stripL (toLowerL details)
    match apiTier1 d vendor_map with
    | some cat => cat
    | none =>
      match apiTier2 d vendor_map with
      | some cat => cat
      | none =>
        match apiTier3 d vendor_map with
        | some cat => cat
        | none => kUncategorized

/-- Generic first-hit scan of the mapping with a per-entry match predicate,
skipping the sentinel key and non-string keys. -/
def tierHit (f : Str → Str → Bool) (d : Str) : VMap → Option Str
  | [] => none
  | (PyKey.nonstr, _) :: rest => tierHit f d rest
  | (PyKey.pstr s, cat) :: rest =>
    if s = kSentinel then tierHit f d rest
    else if f d s then some cat else tierHit f d rest

/-- Modelled from the spec §4.6: tier-1 match — exact equality of the
lowered vendor substring with the normalized details. -/
def exactMatchF (d s : Str) : Bool := toLowerL s = d

/-- Modelled from the spec §4.6: tier-2 match — substring occurrence. -/
def subMatchF (d s : Str) : Bool := containsSub d (toLowerL s)

/-- Modelled from the spec §4.6: tier-3 match — every vendor word token is
present in the details token set. -/
def wordSubsetF (d s : Str) : Bool :=
  (wordTokens (toLowerL s)).all (fun w => (wordTokens d).contains w)

/-- Modelled from the spec §4.6 and claim C1: three-tier categorization in
which the first tier that yields any hit wins, the mapping being iterated
in order with ties broken by first-found. -/
def spec_tiered_categorize (details : Str) (vendor_map : VMap) : Str :=
  if details.isEmpty || vendor_map.isEmpty then kUncategorized
  else
    let d := stripL (toLowerL details)
    match tierHit exactMatchF d vendor_map with
    | some cat => cat
    | none =>
      match tierHit subMatchF d vendor_map with
      | some cat => cat
      | none =>
        match tierHit wordSubsetF d vendor_map with
        | some cat => cat
        | none => kUncategorized

theorem apiTier1_eq_tierHit (d : Str) (vm : VMap) :
    apiTier1 d vm = tierHit exactMatchF d vm := by
  induction vm with
  | nil => rfl
  | cons e rest ih =>
    obtain ⟨k, cat⟩ := e
    cases k <;> simp [apiTier1, tierHit, exactMatchF, ih]

theorem apiTier2_eq_tierHit (d : Str) (vm : VMap) :
    apiTier2 d vm = tierHit subMatchF d vm := by
  induction vm with
  | nil => rfl
  | cons e rest ih =>
    obtain ⟨k, cat⟩ := e
    cases k <;> simp [apiTier2, tierHit, subMatchF, ih]

theorem apiTier3_eq_tierHit (d : Str) (vm : VMap) :
    apiTier3 d vm = tierHit wordSubsetF d vm := by
  induction vm with
  | nil => rfl
  | cons e rest ih =>
    obtain ⟨k, cat⟩ := e
    cases k <;> simp [apiTier3, tierHit, wordSubsetF, ih]

-- Concrete input on which the two categorizers of the repository disagree.
def vGasStation : Str := "gas station".toList
def vCostco : Str := "costco".toList
def cFuel : Str := "Fuel".toList
def cGroceries : Str := "Groceries".toList
def exDetailsCG : Str := "costco gas".toList
def exVMapCG : VMap := [(PyKey.pstr vGasStation, cFuel), (PyKey.pstr vCostco, cGroceries)]

/-- **C1 counterexample**: on details "costco gas" with the mapping
[("gas station" → Fuel), ("costco" → Groceries)], the main-app categorizer
returns Fuel (its single pass matches "gas station" because one of its
tokens occurs in the details), while the claimed three-tier scheme returns
Groceries (tier 2 substring "costco"); so the main-app categorizer does not
implement the claimed three-tier match. -/
theorem c1_counterexample_main_not_tiered :
    main_categorize_transaction exDetailsCG exVMapCG = cFuel ∧
    spec_tiered_categorize exDetailsCG exVMapCG = cGroceries ∧
    main_categorize_transaction exDetailsCG exVMapCG ≠
      spec_tiered_categorize exDetailsCG exVMapCG := by
  refine ⟨by decide, by decide, by decide⟩

/-- **C1 amended**: the API-server categorizer does implement the claimed
three-tier match — exact, then substring, then word-subset, each tier
scanning the mapping in order with the first hit winning (the main-app
categorizer instead uses the single pass exhibited by the
counterexample). -/
theorem c1_api_categorizer_is_tiered (details : Str) (vendor_map : VMap) :
    api_categorize_transaction details vendor_map =
      spec_tiered_categorize details vendor_map := by
  unfold api_categorize_transaction spec_tiered_categorize
  simp only [apiTier1_eq_tierHit, apiTier2_eq_tierHit, apiTier3_eq_tierHit]

theorem mainCatLoop_filter (d mt : Str) (vm : VMap) :
    mainCatLoop d mt (vm.filter validEntry) = mainCatLoop d mt vm := by
  induction vm with
  | nil => rfl
  | cons e rest ih =>
    obtain ⟨k, cat⟩ := e
    cases k with
    | nonstr => simpa [List.filter_cons, validEntry, mainCatLoop] using ih
    | pstr s =>
      by_cases hs : s = kSentinel
      · simpa [List.filter_cons, validEntry, hs, mainCatLoop] using ih
      · simp [List.filter_cons, validEntry, hs, mainCatLoop, ih]

theorem tierHit_filter (f : Str → Str → Bool) (d : Str) (vm : VMap) :
    tierHit f d (vm.filter validEntry) = tierHit f d vm := by
  induction vm with
  | nil => rfl
  | cons e rest ih =>
    obtain ⟨k, cat⟩ := e
    cases k with
    | nonstr => simpa [List.filter_cons, validEntry, tierHit] using ih
    | pstr s =>
      by_cases hs : s = kSentinel
      · simpa [List.filter_cons, validEntry, hs, tierHit] using ih
      · simp [List.filter_cons, validEntry, hs, tierHit, ih]

theorem main_categorize_filter_inv (d : Str) (vm : VMap) :
    main_categorize_transaction d (vm.filter validEntry) =
      main_categorize_transaction d vm := by
  by_cases hd : d.isEmpty
  · simp [main_categorize_transaction, hd]
  · by_cases hv : vm.isEmpty
    · rw [List.isEmpty_iff.mp hv]; rfl
    · unfold main_categorize_transaction
      by_cases hf : (vm.filter validEntry).isEmpty
      · have h0 : mainCatLoop (normWS (toLowerL d)) (mainTextOf (normWS (toLowerL d)))
            vm = kUncategorized := by
          rw [← mainCatLoop_filter, List.isEmpty_iff.mp hf]; rfl
        simp [hd, hv, hf, h0]
      · simp [hd, hv, hf, mainCatLoop_filter]

theorem api_categorize_filter_inv (d : Str) (vm : VMap) :
    api_categorize_transaction d (vm.filter validEntry) =
      api_categorize_transaction d vm := by
  by_cases hd : d.isEmpty
  · simp [api_categorize_transaction, hd]
  · by_cases hv : vm.isEmpty
    · rw [List.isEmpty_iff.mp hv]; rfl
    · unfold api_categorize_transaction
      simp only [apiTier1_eq_tierHit, apiTier2_eq_tierHit, apiTier3_eq_tierHit]
      by_cases hf : (vm.filter validEntry).isEmpty
      · have e1 : tierHit exactMatchF (stripL (toLowerL d)) vm = none := by
          rw [← tierHit_filter, List.isEmpty_iff.mp hf]; rfl
        have e2 : tierHit subMatchF (stripL (toLowerL d)) vm = none := by
          rw [← tierHit_filter, List.isEmpty_iff.mp hf]; rfl
        have e3 : tierHit wordSubsetF (stripL (toLowerL d)) vm = none := by
          rw [← tierHit_filter, List.isEmpty_iff.mp hf]; rfl
        simp [hd, hv, hf, e1, e2, e3]
      · simp [hd, hv, hf, tierHit_filter]

/-- **C8**: both categorizers return "Uncategorized" on empty details or an
empty mapping, and their result is never derived from the sentinel key
`__custom_categories__` nor from any non-string key: removing all such
entries from the mapping never changes the result. -/
theorem c8_categorize_guards_and_sentinel (d : Str) (vm : VMap) :
    main_categorize_transaction [] vm = kUncategorized ∧
    main_categorize_transaction d [] = kUncategorized ∧
    api_categorize_transaction [] vm = kUncategorized ∧
    api_categorize_transaction d [] = kUncategorized ∧
    main_categorize_transaction d (vm.filter validEntry) =
      main_categorize_transaction d vm ∧
    api_categorize_transaction d (vm.filter validEntry) =
      api_categorize_transaction d vm :=
  ⟨rfl, by simp [main_categorize_transaction], rfl,
   by simp [api_categorize_transaction],
   main_categorize_filter_inv d vm, api_categorize_filter_inv d vm⟩

-- ------------------------------------------------------------------
-- C3 / C4 / C10: parse_td_credit_card_statement (src/main.py:286-399)
-- and try_parse_fallback (src/main.py:405-431)
-- ------------------------------------------------------------------

def mJan : Str := "jan".toList
def mFeb : Str := "feb".toList
def mMar : Str := "mar".toList
def mApr : Str := "apr".toList
def mMay : Str := "may".toList
def mJun : Str := "jun".toList
def mJul : Str := "jul".toList
def mAug : Str := "aug".toList
def mSep : Str := "sep".toList
def mOct : Str := "oct".toList
def mNov : Str := "nov".toList
def mDec : Str := "dec".toList

/-- The month alternation `(?:jan|feb|...|dec)` of the credit-card parser's
patterns: all branches are three letters, so alternation order is
immaterial and the match is a three-character lookup. -/
def monthsL : List Str :=
  [mJan, mFeb, mMar, mApr, mMay, mJun, mJul, mAug, mSep, mOct, mNov, mDec]

/-- Match the month alternation at the start of `l`. -/
def matchMonthAt (l : Str) : Option (Str × Str) :=
  if monthsL.contains (l.take 3) then some (l.take 3, l.drop 3) else none

/-- Greedy `\d{1,2}` with regex backtracking: try two digits, and if the
continuation fails retry with one. -/
def day12 {α : Type} (l : Str) (cont : Str → Str → Option α) : Option α :=
  match l with
  | d1 :: d2 :: rest =>
    if isDigitC d1 then
      if isDigitC d2 then
        match cont [d1, d2] rest with
        | some x => some x
        | none => cont [d1] (d2 :: rest)
      else cont [d1] (d2 :: rest)
    else none
  | [d1] => if isDigitC d1 then cont [d1] [] else none
  | [] => none

/-- `\d[\d,]+\.\d{2}` anchored at the start of `l` (the strict amount shape
of the main credit-card transaction pattern: at least two characters before
the decimal point), returning the numeric value of the match with commas
dropped, as `float(...)` does. -/
def matchAmountAt (l : Str) : Option ℚ :=
  match l with
  | c :: rest =>
    if isDigitC c then
      let run := rest.takeWhile (fun x => isDigitC x || x = ',')
      if run.isEmpty then none
      else
        match rest.drop run.length with
        | '.' :: d1 :: d2 :: _ =>
          if isDigitC d1 && isDigitC d2 then some (moneyVal (c :: run) [d1, d2])
          else none
        | _ => none
    else none
  | [] => none

/-- The lazy tail `(.*?)(-?)\$(\d[\d,]+\.\d{2})` of the main transaction
pattern: scan left to right for the first position where `-$amount` (the
greedy optional minus first) or `$amount` matches; everything before it is
the lazy description capture. -/
def findAmount : Str → Str → Option (Str × Bool × ℚ)
  | [], _ => none
  | c :: rest, acc =>
    match (if c = '-' then
             match rest with
             | '$' :: r2 => matchAmountAt r2
             | _ => none
           else none) with
    | some q => some (acc.reverse, true, q)
    | none =>
      match (if c = '$' then matchAmountAt rest else none) with
      | some q => some (acc.reverse, false, q)
      | none => findAmount rest (c :: acc)

/-- Groups of the main credit-card transaction pattern
`(month)(\d{1,2})\s*(month)(\d{1,2})\s+(.*?)(-?)\$(\d[\d,]+\.\d{2})`. -/
structure TxMatch where
  postMonth : Str
  postDay : Str
  transMonth : Str
  transDay : Str
  desc : Str
  negative : Bool
  amount : ℚ
deriving DecidableEq

/-- `re.match` of the main credit-card transaction pattern
(`src/main.py:342-344`). -/
def matchTransLine (l : Str) : Option TxMatch :=
  match matchMonthAt l with
  | none => none
  | some (pm, r1) =>
    day12 r1 (fun pd r2 =>
      match matchMonthAt (r2.dropWhile isSpaceC) with
      | none => none
      | some (tm, r4) =>
        day12 r4 (fun td r5 =>
          match r5 with
          | c :: _ =>
            if isSpaceC c then
              match findAmount (r5.dropWhile isSpaceC) [] with
              | some (d, neg, q) => some ⟨pm, pd, tm, td, d, neg, q⟩
              | none => none
            else none
          | [] => none))

/-- The year-rollover assignment of the credit-card parsers
(`src/main.py:354-358` and `src/main.py:414-417`). -/
def ccYear (txnMonth statementMonth : Str) (statementYear : Int) : Int :=
  if txnMonth = mDec ∧ statementMonth = mJan then statementYear - 1
  else statementYear

/-- A TransactionRecord as produced by the credit-card parser.  The record's
date is embedded as its (month, day, year) components (the components of
the string handed to the coercing datetime conversion). -/
structure CCRec where
  dateMonth : Str
  dateDay : Str
  dateYear : Int
  details : Str
  amount : ℚ
  transaction_type : Str
  category : Str
  bank : Str
  statement_type : Str
deriving DecidableEq

/-- Record construction for a main-pattern match (`src/main.py:349-376`):
the signed amount's magnitude is stored, the sign only drives the
Debit/Credit choice, and the year follows the rollover rule on the posting
month. -/
def mkCCRec (t : TxMatch) (statementMonth : Str) (statementYear : Int) : CCRec :=
  let signed : ℚ := if t.negative then -t.amount else t.amount
  { dateMonth := t.postMonth, dateDay := t.postDay,
    dateYear := ccYear t.postMonth statementMonth statementYear,
    details := stripL t.desc, amount := absQ signed,
    transaction_type := if 0 < signed then kDebit else kCredit,
    category := kUncategorized, bank := bTD, statement_type := sCreditCard }

/-- `[\d,]+\.\d{2}` anchored at the start of `l` (the looser amount shape of
the fallback pattern), returning its value. -/
def matchMoneyOpt (l : Str) : Option ℚ :=
  let run := l.takeWhile (fun x => isDigitC x || x = ',')
  if run.isEmpty then none
  else
    match l.drop run.length with
    | '.' :: d1 :: d2 :: _ =>
      if isDigitC d1 && isDigitC d2 then some (moneyVal run [d1, d2]) else none
    | _ => none

/-- The lazy scan for `(.+?)\s*\$(-?[\d,]+\.\d{2})`: the description must be
nonempty, so a character is consumed before each probe; the `\s*` between
description and dollar sign is the greedy whitespace run. -/
def fbScan : Str → Str → Option (Str × ℚ)
  | [], _ => none
  | c :: rest, acc =>
    match (match rest.dropWhile isSpaceC with
           | '$' :: r2 =>
             match r2 with
             | '-' :: r3 => (matchMoneyOpt r3).map (fun q => -q)
             | _ => matchMoneyOpt r2
           | _ => none) with
    | some q => some ((c :: acc).reverse, q)
    | none => fbScan rest (c :: acc)

/-- Backtracking over the greedy `\s+` of the fallback tail
`\s+(.+?)\s*\$(-?[\d,]+\.\d{2})`: the whitespace run tries its maximal
length first and shrinks (never below one) until the rest matches. -/
def fbTailGo : Nat → Str → Option (Str × ℚ)
  | 0, _ => none
  | s + 1, r5 =>
    match fbScan (r5.drop (s + 1)) [] with
    | some x => some x
    | none => fbTailGo s r5

/-- The tail `\s+(.+?)\s*\$(-?[\d,]+\.\d{2})` of the fallback pattern. -/
def fbTail (r5 : Str) : Option (Str × ℚ) :=
  fbTailGo (r5.takeWhile isSpaceC).length r5

/-- Record construction shared by `try_parse_fallback`
(`src/main.py:410-431`): the transaction month/day are the leading
characters of the first (posting) date group. -/
def mkCCRecFB (pm pd statementMonth : Str) (statementYear : Int)
    (d : Str) (signed : ℚ) : CCRec :=
  { dateMonth := pm, dateDay := pd,
    dateYear := ccYear pm statementMonth statementYear,
    details := stripL d, amount := absQ signed,
    transaction_type := if 0 < signed then kDebit else kCredit,
    category := kUncategorized, bank := bTD, statement_type := sCreditCard }

/-- `try_parse_fallback` (`src/main.py:405-431`). -/
def tryParseFallback (l : Str) (statementMonth : Str) (statementYear : Int) :
    Option CCRec :=
  match matchMonthAt l with
  | none => none
  | some (pm, r1) =>
    day12 r1 (fun pd r2 =>
      match matchMonthAt (r2.dropWhile isSpaceC) with
      | none => none
      | some (_, r4) =>
        day12 r4 (fun _ r5 =>
          match fbTail r5 with
          | some (d, q) => some (mkCCRecFB pm pd statementMonth statementYear d q)
          | none => none))

/-- `looks_like_transaction_start` (`src/main.py:401-402`):
`^(jan|...|dec)\d{1,2}` needs a month followed by at least one digit. -/
def startsLikeTxn (l : Str) : Bool :=
  match matchMonthAt l with
  | some (_, r) =>
    match r with
    | c :: _ => isDigitC c
    | [] => false
  | none => false

def kStatementW : Str := "statement".toList
def kSummaryW : Str := "summary".toList
def kBalanceW : Str := "balance".toList

/-- Loop state of the credit-card parser: the emitted records and the
never-read `buffer_line`. -/
structure CCState where
  records : List CCRec
  buffer : Str
deriving DecidableEq

/-- `data[-1]["details"] += " " + line.strip()` (`src/main.py:390`). -/
def appendToLastCC : List CCRec → Str → List CCRec
  | [], _ => []
  | [r], l => [{ r with details := r.details ++ ' ' :: l }]
  | r :: s :: rs, l => r :: appendToLastCC (s :: rs) l

/-- The skip condition of the credit-card parser's line loop
(`src/main.py:341-342`): empty line, or line containing "statement",
"summary" or "balance". -/
def ccSkipCond (l : Str) : Bool :=
  l.isEmpty || containsSub l kStatementW || containsSub l kSummaryW ||
    containsSub l kBalanceW

/-- One iteration of the credit-card parser's line loop
(`src/main.py:339-392`): strip+lower; skip lines satisfying `ccSkipCond`;
try the main pattern; else, if the line starts like a transaction, try the
fallback; else treat the line as a continuation of the previous record's
details (or buffer it when no record exists yet). -/
def ccStep (statementMonth : Str) (statementYear : Int) (st : CCState)
    (rawLine : Str) : CCState :=
  if ccSkipCond (toLowerL (stripL rawLine)) then st
  else
    match matchTransLine (toLowerL (stripL rawLine)) with
    | some t =>
      { records := st.records ++ [mkCCRec t statementMonth statementYear],
        buffer := [] }
    | none =>
      match (if startsLikeTxn (toLowerL (stripL rawLine))
             then tryParseFallback (toLowerL (stripL rawLine)) statementMonth statementYear
             else none) with
      | some r => { st with records := st.records ++ [r] }
      | none =>
        if st.records.isEmpty then
          { st with buffer := st.buffer ++ ' ' :: stripL (toLowerL (stripL rawLine)) }
        else
          { st with records := appendToLastCC st.records (stripL (toLowerL (stripL rawLine))) }

def kStmtDateAnchor : Str := "statementdate:".toList

def isLowerAlpha (c : Char) : Bool := 'a' ≤ c ∧ c ≤ 'z'

/-- The statement-date pattern `statementdate:([a-z]+)(\d{1,2}),(\d{4})`
anchored at the start of `l` (`src/main.py:308-312`), returning the month
group and the numeric year. -/
def stmtDateAt (l : Str) : Option (Str × Int) :=
  if kStmtDateAnchor.isPrefixOf l then
    let r := l.drop kStmtDateAnchor.length
    let mrun := r.takeWhile isLowerAlpha
    if mrun.isEmpty then none
    else
      let r2 := r.drop mrun.length
      let drun := r2.takeWhile isDigitC
      if drun.isEmpty || 2 < drun.length then none
      else
        match r2.drop drun.length with
        | ',' :: y1 :: y2 :: y3 :: y4 :: _ =>
          if isDigitC y1 && isDigitC y2 && isDigitC y3 && isDigitC y4 then
            some (mrun, (digitsToNat [y1, y2, y3, y4] : Int))
          else none
        | _ => none
  else none

/-- `re.search` of the statement-date pattern: leftmost match wins. -/
def extractStmtDate : Str → Option (Str × Int)
  | [] => none
  | l@(_ :: t) =>
    match stmtDateAt l with
    | some x => some x
    | none => extractStmtDate t

/-- The flattening `''.join(line.lower().replace(" ", "").replace("\n", ""))`
over which the credit-card parser looks up the statement date
(`src/main.py:301-303`). -/
def ccFlatten (lines : List Str) : Str :=
  (lines.map (fun l => (toLowerL l).filter (fun c => ¬ (c = ' ' ∨ c = '\n')))).flatten

/-- `parse_td_credit_card_statement`'s transaction extraction
(`src/main.py:286-399`): statement month/year come from the statement-date
lookup (defaulting to "jan" and the current year), then the line loop
runs. -/
def parse_td_credit_card (lines : List Str) (nowYear : Int) : CCState :=
  let md := extractStmtDate (ccFlatten lines)
  let statementMonth := (md.map Prod.fst).getD mJan
  let statementYear := (md.map Prod.snd).getD nowYear
  lines.foldl (ccStep statementMonth statementYear) ⟨[], []⟩

theorem day12_some {α : Type} (l : Str) (cont : Str → Str → Option α) (x : α)
    (h : day12 l cont = some x) : ∃ d r, cont d r = some x := by
  match l with
  | [] => simp only [day12] at h; cases h
  | [d1] =>
    simp only [day12] at h
    by_cases hd : isDigitC d1
    · rw [if_pos hd] at h; exact ⟨[d1], [], h⟩
    · rw [if_neg hd] at h; cases h
  | d1 :: d2 :: rest =>
    simp only [day12] at h
    by_cases hd1 : isDigitC d1
    · rw [if_pos hd1] at h
      by_cases hd2 : isDigitC d2
      · rw [if_pos hd2] at h
        cases h2 : cont [d1, d2] rest with
        | some z => rw [h2] at h; cases h; exact ⟨[d1, d2], rest, h2⟩
        | none => rw [h2] at h; exact ⟨[d1], d2 :: rest, h⟩
      · rw [if_neg hd2] at h; exact ⟨[d1], d2 :: rest, h⟩
    · rw [if_neg hd1] at h; cases h

/-- Every record the fallback can build has the rollover year on its own
stored month, and a non-negative amount. -/
theorem tryParseFallback_shape (l m : Str) (y : Int) (r : CCRec)
    (h : tryParseFallback l m y = some r) :
    r.dateYear = ccYear r.dateMonth m y ∧ 0 ≤ r.amount := by
  unfold tryParseFallback at h
  cases hm : matchMonthAt l with
  | none => rw [hm] at h; cases h
  | some pr =>
    obtain ⟨pm, r1⟩ := pr
    rw [hm] at h
    obtain ⟨pd, r2, h2⟩ := day12_some _ _ _ h
    cases hm2 : matchMonthAt (r2.dropWhile isSpaceC) with
    | none => rw [hm2] at h2; cases h2
    | some pr2 =>
      obtain ⟨tm, r4⟩ := pr2
      rw [hm2] at h2
      obtain ⟨td, r5, h3⟩ := day12_some _ _ _ h2
      cases hft : fbTail r5 with
      | none => rw [hft] at h3; cases h3
      | some dq =>
        obtain ⟨d, q⟩ := dq
        rw [hft] at h3
        cases h3
        exact ⟨rfl, absQ_nonneg _⟩

theorem appendToLastCC_fields : ∀ (rs : List CCRec) (l : Str) (r' : CCRec),
    r' ∈ appendToLastCC rs l →
    ∃ r ∈ rs, r'.dateMonth = r.dateMonth ∧ r'.dateYear = r.dateYear ∧
      r'.amount = r.amount
  | [], _, _, h => by cases h
  | [a], l, r', h => by
    simp only [appendToLastCC, List.mem_singleton] at h
    subst h
    exact ⟨a, List.mem_singleton.mpr rfl, rfl, rfl, rfl⟩
  | a :: b :: rs2, l, r', h => by
    simp only [appendToLastCC, List.mem_cons] at h
    rcases h with rfl | h
    · exact ⟨r', List.mem_cons_self _ _, rfl, rfl, rfl⟩
    · obtain ⟨r, hr, he⟩ := appendToLastCC_fields (b :: rs2) l r' h
      exact ⟨r, List.mem_cons_of_mem _ hr, he⟩

/-- The per-record invariant of the credit-card line loop: the stored year
follows the rollover rule on the stored month, and the amount is a
non-negative magnitude. -/
def ccRecInv (m : Str) (y : Int) (r : CCRec) : Prop :=
  r.dateYear = (if r.dateMonth = mDec ∧ m = mJan then y - 1 else y) ∧
    0 ≤ r.amount

theorem ccStep_preserves (m : Str) (y : Int) (st : CCState) (line : Str)
    (h : ∀ r ∈ st.records, ccRecInv m y r) :
    ∀ r ∈ (ccStep m y st line).records, ccRecInv m y r := by
  intro r hr
  unfold ccStep at hr
  by_cases h1 : ccSkipCond (toLowerL (stripL line)) = true
  · rw [if_pos h1] at hr; exact h r hr
  · rw [if_neg h1] at hr
    cases hm : matchTransLine (toLowerL (stripL line)) with
    | some t =>
      rw [hm] at hr
      simp only [List.mem_append, List.mem_singleton] at hr
      rcases hr with hr | rfl
      · exact h r hr
      · refine ⟨?_, absQ_nonneg _⟩
        rfl
    | none =>
      rw [hm] at hr
      cases hf : (if startsLikeTxn (toLowerL (stripL line))
                  then tryParseFallback (toLowerL (stripL line)) m y else none) with
      | some r2 =>
        rw [hf] at hr
        simp only [List.mem_append, List.mem_singleton] at hr
        rcases hr with hr | rfl
        · exact h r hr
        · by_cases hst : startsLikeTxn (toLowerL (stripL line)) = true
          · rw [if_pos hst] at hf
            obtain ⟨hy, ha⟩ := tryParseFallback_shape _ m y _ hf
            exact ⟨by rw [hy]; rfl, ha⟩
          · rw [if_neg hst] at hf; cases hf
      | none =>
        rw [hf] at hr
        by_cases he : st.records.isEmpty = true
        · rw [if_pos he] at hr; exact h r hr
        · rw [if_neg he] at hr
          obtain ⟨r0, hr0, e1, e2, e3⟩ :=
            appendToLastCC_fields st.records _ r hr
          obtain ⟨hy0, ha0⟩ := h r0 hr0
          exact ⟨by rw [e2, e1, hy0], by rw [e3]; exact ha0⟩

theorem ccFold_preserves (m : Str) (y : Int) :
    ∀ (lines : List Str) (st : CCState),
      (∀ r ∈ st.records, ccRecInv m y r) →
      ∀ r ∈ (lines.foldl (ccStep m y) st).records, ccRecInv m y r
  | [], _, h => h
  | line :: rest, st, h =>
    ccFold_preserves m y rest (ccStep m y st line)
      (ccStep_preserves m y st line h)

def exLineStmt : Str := "statement date: jan 5, 2025".toList
def exLineDec : Str := "dec28 dec29 payment received -$250.00".toList
def exLineJan : Str := "jan10 jan11 groceries town $75.50".toList
def exCCLines : List Str := [exLineStmt, exLineDec, exLineJan]

set_option maxRecDepth 10000 in
/-- **C3**: whenever the statement-date lookup yields the statement's own
month and year, every record the credit-card parser produces carries that
year, except that a record whose stored month is December on a statement
whose month is January carries `statement_year - 1`.  Concretely, on a
statement dated "Jan 5, 2025" the transaction posted "dec28" is assigned
2024 and the transaction posted "jan10" is assigned 2025. -/
theorem c3_cc_year_rollover :
    (∀ (lines : List Str) (nowYear sy : Int) (sm : Str),
      extractStmtDate (ccFlatten lines) = some (sm, sy) →
      ∀ r ∈ (parse_td_credit_card lines nowYear).records,
        r.dateYear = if r.dateMonth = mDec ∧ sm = mJan then sy - 1 else sy) ∧
    extractStmtDate (ccFlatten exCCLines) = some (mJan, 2025) ∧
    (parse_td_credit_card exCCLines 2030).records.map
        (fun r => (r.dateMonth, r.dateYear)) = [(mDec, 2024), (mJan, 2025)] := by
  refine ⟨?_, by decide, by decide⟩
  intro lines nowYear sy sm hx r hr
  have hp : parse_td_credit_card lines nowYear =
      lines.foldl (ccStep sm sy) ⟨[], []⟩ := by
    unfold parse_td_credit_card
    rw [hx]
    rfl
  rw [hp] at hr
  exact (ccFold_preserves sm sy lines ⟨[], []⟩
    (fun r hr => absurd hr (List.not_mem_nil r)) r hr).1

set_option maxRecDepth 10000 in
/-- Witness for C3: the rollover equation instantiated on the concrete
statement, at its first record. -/
theorem c3_cc_year_rollover_witness :
    ((parse_td_credit_card exCCLines 2030).records.get
        ⟨0, by decide⟩).dateYear =
      (if ((parse_td_credit_card exCCLines 2030).records.get
          ⟨0, by decide⟩).dateMonth = mDec ∧ mJan = mJan then 2025 - 1 else 2025) :=
  c3_cc_year_rollover.1 exCCLines 2030 2025 mJan (by decide) _
    (List.get_mem _ _ _)

def ccInit : CCState := ⟨[], []⟩
def exBalLine : Str := "jan10 jan11 balance protection fee $19.99".toList

set_option maxRecDepth 10000 in
/-- **C10**: every line whose lowercased stripped text is empty or contains
"statement", "summary" or "balance" leaves the credit-card parser state
completely unchanged — no record is produced and nothing is appended to the
previous record's details — even for a line that the transaction pattern
would otherwise match, such as a "balance protection fee" charge. -/
theorem c10_balance_word_lines_skipped :
    (∀ (m : Str) (y : Int) (st : CCState) (line : Str),
      ccSkipCond (toLowerL (stripL line)) = true → ccStep m y st line = st) ∧
    (∀ (l : Str), ccSkipCond l = true ↔
      (l.isEmpty = true ∨ containsSub l kStatementW = true ∨
        containsSub l kSummaryW = true ∨ containsSub l kBalanceW = true)) ∧
    (matchTransLine (toLowerL (stripL exBalLine))).isSome = true ∧
    ccStep mJan 2025 ccInit exBalLine = ccInit := by
  refine ⟨?_, ?_, by decide, by decide⟩
  · intro m y st line h
    unfold ccStep
    rw [if_pos h]
  · intro l
    simp [ccSkipCond, or_assoc]

set_option maxRecDepth 10000 in
/-- Witness for C10: the skip equation applied at the concrete
"balance protection fee" transaction line. -/
theorem c10_balance_word_lines_skipped_witness :
    ccStep mJan 2025 ccInit exBalLine = ccInit :=
  c10_balance_word_lines_skipped.1 mJan 2025 ccInit exBalLine (by decide)


-- ------------------------------------------------------------------
-- C4 / C7: parse_td_chequing_statement (src/main.py:434-536)
-- ------------------------------------------------------------------

def kClosingBalance : Str := "closing balance".toList
def kOpeningBalance : Str := "opening balance".toList
def sChequing : Str := "Chequing".toList

/-- `[\d,]+\.\d{2}` anchored at the start of `l`: maximal digit/comma run,
dot, exactly two digits; returns (integer-part run, fraction digits,
remainder). -/
def numAt : Str → Option (Str × Str × Str)
  | [] => none
  | c :: rest =>
    if isDigitC c || c = ',' then
      match rest.drop ((rest.takeWhile (fun x => isDigitC x || x = ',')).length) with
      | '.' :: d1 :: d2 :: r =>
        if isDigitC d1 && isDigitC d2 then
          some (c :: rest.takeWhile (fun x => isDigitC x || x = ','), [d1, d2], r)
        else none
      | _ => none
    else none

theorem moneyVal_nonneg (a b : Str) : 0 ≤ moneyVal a b := by
  unfold moneyVal
  rw [Rat.mkRat_eq_div]
  positivity

theorem drop_cons_length {α : Type} {l t : List α} {a : α} {n : Nat}
    (h : l.drop n = a :: t) : t.length < l.length := by
  have h2 := congrArg List.length h
  simp only [List.length_drop, List.length_cons] at h2
  omega

theorem drop3_length {α : Type} {l r : List α} {n : Nat} {a b c : α}
    (h : l.drop n = a :: b :: c :: r) : r.length < l.length := by
  have h2 := congrArg List.length h
  simp only [List.length_drop, List.length_cons] at h2
  omega

theorem numAt_length : ∀ (l : Str) (i f r : Str),
    numAt l = some (i, f, r) → r.length < l.length := by
  intro l i f r h
  match l with
  | [] => cases h
  | c :: rest =>
    simp only [numAt] at h
    split at h
    · split at h
      · split at h
        · cases h
          have key : r.length < rest.length := drop3_length (by assumption)
          simp only [List.length_cons]
          omega
        · cases h
      · cases h
    · cases h

/-- The amount-pair pattern `([\d,]+\.\d{2}) ([\d,]+\.\d{2})` anchored at
the start of `l`: first number, one literal space, second number; returns
the first number's value (the transaction amount, `src/main.py:510-512`)
and the remainder after the whole match. -/
def pairAt (l : Str) : Option (ℚ × Str) :=
  match numAt l with
  | some (i1, f1, r1) =>
    match r1 with
    | ' ' :: r2 =>
      match numAt r2 with
      | some (_, _, r3) => some (moneyVal i1 f1, r3)
      | none => none
    | _ => none
  | none => none

/-- A successful pair match has a non-negative value and strictly consumes
input. -/
theorem pairAt_shape : ∀ (l : Str) (q : ℚ) (r : Str),
    pairAt l = some (q, r) → 0 ≤ q ∧ r.length < l.length := by
  intro l q r h
  unfold pairAt at h
  split at h
  · rename_i i1 f1 r1 h1
    split at h
    · rename_i r2
      split at h
      · rename_i i2 f2 r3 h2
        cases h
        have L1 := numAt_length l i1 f1 (' ' :: r2) h1
        have L2 := numAt_length r2 i2 f2 r h2
        simp only [List.length_cons] at L1
        exact ⟨moneyVal_nonneg _ _, by omega⟩
      · cases h
    · cases h
  · cases h

/-- One left-to-right scan implementing both `re.findall` and `re.split` on
the amount-pair pattern, with a structural fuel argument (one unit per scan
position; since every match consumes at least one character, fuel equal to
the input length never runs out). -/
def scanPairsF : Nat → Str → List ℚ × List Str
  | _, [] => ([], [[]])
  | 0, l => ([], [l])
  | fuel + 1, c :: rest =>
    match pairAt (c :: rest) with
    | some (q, r) =>
      let x := scanPairsF fuel r
      (q :: x.1, [] :: x.2)
    | none =>
      match scanPairsF fuel rest with
      | (ms, []) => (ms, [[c]])
      | (ms, p :: ps) => (ms, (c :: p) :: ps)

/-- `re.findall` match values and `re.split` fragments of the amount-pair
pattern over `l`. -/
def scanPairs (l : Str) : List ℚ × List Str := scanPairsF l.length l

/-- `re.split` produces exactly one more fragment than `re.findall` produces
matches, and every match value is non-negative. -/
theorem scanPairsF_shape : ∀ (fuel : Nat) (l : Str),
    (scanPairsF fuel l).2.length = (scanPairsF fuel l).1.length + 1 ∧
      ∀ q ∈ (scanPairsF fuel l).1, 0 ≤ q := by
  intro fuel
  induction fuel with
  | zero =>
    intro l
    cases l <;> simp [scanPairsF]
  | succ n ih =>
    intro l
    cases l with
    | nil => simp [scanPairsF]
    | cons c rest =>
      cases hp : pairAt (c :: rest) with
      | some qr =>
        obtain ⟨q, r⟩ := qr
        rw [scanPairsF, hp]
        simp only [List.length_cons, List.mem_cons]
        refine ⟨by simp [(ih r).1], ?_⟩
        rintro x (rfl | hx)
        · exact (pairAt_shape _ _ _ hp).1
        · exact (ih r).2 x hx
      | none =>
        rw [scanPairsF, hp]
        cases hm : scanPairsF n rest with
        | mk ms ps =>
          have ihr := ih rest
          rw [hm] at ihr
          cases ps with
          | nil => simp at ihr
          | cons p ps2 => simpa using ihr

theorem scanPairs_shape (l : Str) :
    (scanPairs l).2.length = (scanPairs l).1.length + 1 ∧
      ∀ q ∈ (scanPairs l).1, 0 ≤ q :=
  scanPairsF_shape l.length l

def capMonths : List Str :=
  ["Jan".toList, "Feb".toList, "Mar".toList, "Apr".toList, "May".toList,
   "Jun".toList, "Jul".toList, "Aug".toList, "Sep".toList, "Oct".toList,
   "Nov".toList, "Dec".toList]

/-- `re.match` of `^((Jan|...|Dec)\s+\d{1,2})(.*)` (`src/main.py:497-501`):
capitalized month, at least one whitespace, one or two digits (greedy);
returns (group 1, group 3). -/
def chqDateMatch (l : Str) : Option (Str × Str) :=
  if capMonths.contains (l.take 3) then
    if (l.drop 3).takeWhile isSpaceC = [] then none
    else
      match (l.drop 3).dropWhile isSpaceC with
      | d1 :: d2 :: rest =>
        if isDigitC d1 then
          if isDigitC d2 then
            some (l.take 3 ++ (l.drop 3).takeWhile isSpaceC ++ [d1, d2], rest)
          else some (l.take 3 ++ (l.drop 3).takeWhile isSpaceC ++ [d1], d2 :: rest)
        else none
      | [d1] =>
        if isDigitC d1 then
          some (l.take 3 ++ (l.drop 3).takeWhile isSpaceC ++ [d1], [])
        else none
      | [] => none
  else none

/-- `\$?([\d,]+\.\d{2})\s*$` anchored at the start of `l` (with `$` the end
of the stripped line): optional dollar sign, number, then only whitespace
to the end (`src/main.py:484-486`). -/
def closingAmtAt (l : Str) : Option ℚ :=
  match numAt (match l with | '$' :: t => t | _ => l) with
  | some (i, f, r) => if r.all isSpaceC then some (moneyVal i f) else none
  | none => none

/-- `re.search` of the closing-balance amount pattern: leftmost match. -/
def searchClosingAmt : Str → Option ℚ
  | [] => none
  | c :: t =>
    match closingAmtAt (c :: t) with
    | some q => some q
    | none => searchClosingAmt t

/-- A TransactionRecord as produced by the chequing parser: the date is
embedded as the raw carried date string plus the statement year (the
components of the string handed to the coercing datetime conversion). -/
structure ChqRec where
  dateRaw : Str
  dateYear : Int
  details : Str
  amount : ℚ
  transaction_type : Str
  category : Str
  bank : Str
  statement_type : Str
deriving DecidableEq

/-- Record construction of the chequing parser (`src/main.py:507-524`):
unsigned amount straight from the first number of the pair, Debit/Credit
from the keyword classifier on the description. -/
def mkChqRec (bank : Str) (yr : Int) (d : Str) (desc : Str) (q : ℚ) : ChqRec :=
  { dateRaw := d, dateYear := yr, details := desc, amount := q,
    transaction_type := classify_transaction_type desc,
    category := kUncategorized, bank := bank, statement_type := sChequing }

/-- `for i, (amount_str, _) in enumerate(matches): desc = parts[i]...`
(`src/main.py:509-524`): the i-th split fragment is paired with the i-th
match; the final fragment (one more fragment than matches) is dropped by
the zip. -/
def buildChqRecs (bank : Str) (yr : Int) (d : Str) (ms : List ℚ)
    (ps : List Str) : List ChqRec :=
  (ms.zip ps).map (fun x => mkChqRec bank yr d (stripL x.2) x.1)

/-- Loop state of the chequing parser.  `aborted` models the `TypeError`
raised (and caught by the enclosing handler, ending the scan) when a
transaction line is reached before any date-prefixed line has set
`current_date` (`current_date + f" {statement_year}"` with `None`). -/
structure ChqState where
  currentDate : Option Str
  records : List ChqRec
  closing : ℚ
  aborted : Bool
deriving DecidableEq

/-- `data[-1]["details"] += " " + line` (`src/main.py:526-527`). -/
def appendToLastChq : List ChqRec → Str → List ChqRec
  | [], _ => []
  | [r], l => [{ r with details := r.details ++ ' ' :: l }]
  | r :: s :: rs, l => r :: appendToLastChq (s :: rs) l

/-- The post-date-strip remainder of a chequing line: if the date pattern
matches, processing continues on `group(3).strip()`, else on the line
itself. -/
def chqRestOf (line : Str) : Str :=
  match chqDateMatch line with
  | some (_, rem) => stripL rem
  | none => line

/-- The date context after the date-match step: a matching line installs
its own group 1 as `current_date`. -/
def chqDateOf (st : ChqState) (line : Str) : Option Str :=
  match chqDateMatch line with
  | some (dstr, _) => some dstr
  | none => st.currentDate

/-- The body of one chequing loop iteration after the date-match step
(`src/main.py:503-527`): skip "opening balance" lines; emit one record per
amount-pair match, pairing fragment i with match i; with no match, append
the line to the previous record's details (or drop it when no record
exists); with matches but no date context, abort (see `ChqState`). -/
def chqContent (bank : Str) (yr : Int) (st : ChqState) (line : Str) : ChqState :=
  if containsSub (toLowerL line) kOpeningBalance then st
  else
    match scanPairs line with
    | ([], _) =>
      if st.records.isEmpty then st
      else { st with records := appendToLastChq st.records line }
    | (m :: ms, ps) =>
      match st.currentDate with
      | none => { st with aborted := true }
      | some d =>
        { st with records := st.records ++ buildChqRecs bank yr d (m :: ms) ps }

/-- One iteration of the chequing parser's second line loop
(`src/main.py:478-527`): skip empty lines; a line containing
"closing balance" whose trailing amount parses updates the closing balance
and is consumed, otherwise the line falls through to the date-match step
and the body. -/
def chqStep (bank : Str) (yr : Int) (st : ChqState) (rawLine : Str) : ChqState :=
  if st.aborted then st
  else if (stripL rawLine).isEmpty then st
  else
    match (if containsSub (toLowerL (stripL rawLine)) kClosingBalance
           then searchClosingAmt (stripL rawLine) else none) with
    | some q => { st with closing := q }
    | none =>
      chqContent bank yr
        { st with currentDate := chqDateOf st (stripL rawLine) }
        (chqRestOf (stripL rawLine))

/-- The transaction-extraction loop of `parse_td_chequing_statement`
(`src/main.py:434-536`), over the concatenated line streams of all pages,
parameterized by the detected bank and statement year. -/
def parse_td_chequing (bank : Str) (yr : Int) (lines : List Str) : ChqState :=
  lines.foldl (chqStep bank yr) ⟨none, [], 0, false⟩

-- ------------------------------------------------------------------
-- C4: parse_transaction_text (src/main.py:659-689), the OCR fallback's
-- per-row parser
-- ------------------------------------------------------------------

/-- `-?\$[\d,]+\.\d{2}` anchored at the start of `l`: greedy optional minus,
dollar sign, number; the captured group has `$` and commas removed before
`float`, so the minus sign negates the value. -/
def signedAmtAt (l : Str) : Option ℚ :=
  match l with
  | '-' :: '$' :: r => (matchMoneyOpt r).map (fun q => -q)
  | '$' :: r => matchMoneyOpt r
  | _ => none

/-- Probe for `\s+(-?\$amount)` at the current position: at least one
whitespace character, then (after the greedy whitespace run) the signed
amount. -/
def ocrCheckHere (l : Str) : Option ℚ :=
  match l with
  | c :: _ => if isSpaceC c then signedAmtAt (l.dropWhile isSpaceC) else none
  | [] => none

/-- The lazy description scan of `(.*?)\s+(-?\$amount)`: the description may
be empty, and ends at the earliest position where whitespace followed by
the amount matches. -/
def lazyScanOcr : Str → Str → Option (Str × ℚ)
  | [], _ => none
  | c :: rest, acc =>
    match ocrCheckHere (c :: rest) with
    | some q => some (acc.reverse, q)
    | none => lazyScanOcr rest (c :: acc)

/-- The tail `\s+(.*?)\s+(-?\$amount)` of the OCR pattern after the date:
the first greedy `\s+` takes its maximal run; if no description split
works, it backtracks by one so that an amount immediately following the
whitespace run matches with an empty description (possible only when the
run has at least two characters, one for each `\s+`). -/
def ocrTail (afterDate : Str) : Option (Str × ℚ) :=
  if (afterDate.takeWhile isSpaceC).length = 0 then none
  else
    match lazyScanOcr (afterDate.drop (afterDate.takeWhile isSpaceC).length) [] with
    | some x => some x
    | none =>
      if 2 ≤ (afterDate.takeWhile isSpaceC).length then
        match signedAmtAt (afterDate.drop (afterDate.takeWhile isSpaceC).length) with
        | some q => some ([], q)
        | none => none
      else none

/-- `\d{2}/\d{2}/\d{4}` anchored at the start of `l`. -/
def dateAt (l : Str) : Option (Str × Str) :=
  match l with
  | a :: b :: '/' :: c :: d :: '/' :: e :: f :: g :: h :: rest =>
    if [a, b, c, d, e, f, g, h].all isDigitC then
      some ([a, b, '/', c, d, '/', e, f, g, h], rest)
    else none
  | _ => none

/-- `re.search` of the OCR transaction pattern: scan start positions left to
right; at each, the date must match and then the tail. -/
def ocrSearch : Str → Option (Str × Str × ℚ)
  | [] => none
  | c :: t =>
    match dateAt (c :: t) with
    | some (ds, rest) =>
      match ocrTail rest with
      | some (d, q) => some (ds, d, q)
      | none => ocrSearch t
    | none => ocrSearch t

/-- A TransactionRecord as produced by the OCR fallback's row parser; the
date is embedded as the raw matched date string. -/
structure OcrRec where
  dateStr : Str
  details : Str
  amount : ℚ
  transaction_type : Str
  category : Str
  bank : Str
  statement_type : Str
deriving DecidableEq

/-- `parse_transaction_text` (`src/main.py:659-689`): on a pattern match,
store the amount's magnitude, with the sign only driving Debit/Credit. -/
def parse_transaction_text (text : Str) : Option OcrRec :=
  match ocrSearch text with
  | some (ds, d, q) =>
    some { dateStr := ds, details := stripL d, amount := absQ q,
           transaction_type := if 0 < q then kDebit else kCredit,
           category := kUncategorized, bank := bTD,
           statement_type := sCreditCard }
  | none => none

theorem appendToLastChq_amounts : ∀ (rs : List ChqRec) (l : Str) (r' : ChqRec),
    r' ∈ appendToLastChq rs l → ∃ r ∈ rs, r'.amount = r.amount
  | [], _, _, h => by cases h
  | [a], l, r', h => by
    simp only [appendToLastChq, List.mem_singleton] at h
    subst h
    exact ⟨a, List.mem_singleton.mpr rfl, rfl⟩
  | a :: b :: rs2, l, r', h => by
    simp only [appendToLastChq, List.mem_cons] at h
    rcases h with rfl | h
    · exact ⟨r', List.mem_cons_self _ _, rfl⟩
    · obtain ⟨r, hr, he⟩ := appendToLastChq_amounts (b :: rs2) l r' h
      exact ⟨r, List.mem_cons_of_mem _ hr, he⟩

theorem buildChqRecs_amounts (bank : Str) (yr : Int) (d : Str) (ms : List ℚ)
    (ps : List Str) (r : ChqRec) (h : r ∈ buildChqRecs bank yr d ms ps) :
    r.amount ∈ ms := by
  unfold buildChqRecs at h
  obtain ⟨x, hx, rfl⟩ := List.mem_map.mp h
  exact (List.of_mem_zip hx).1

theorem chqContent_amounts (bank : Str) (yr : Int) (st : ChqState) (line : Str)
    (h : ∀ r ∈ st.records, 0 ≤ r.amount) :
    ∀ r ∈ (chqContent bank yr st line).records, 0 ≤ r.amount := by
  intro r hr
  unfold chqContent at hr
  split at hr
  · exact h r hr
  · cases hsp : scanPairs line with
    | mk ms' ps' =>
      rw [hsp] at hr
      match ms', ps' with
      | [], ps' =>
        simp only at hr
        split at hr
        · exact h r hr
        · obtain ⟨r0, hr0, he⟩ := appendToLastChq_amounts st.records line r hr
          rw [he]; exact h r0 hr0
      | m :: ms, ps' =>
        simp only at hr
        cases hcd : st.currentDate with
        | none => rw [hcd] at hr; exact h r hr
        | some d =>
          rw [hcd] at hr
          simp only [List.mem_append] at hr
          rcases hr with hr | hr
          · exact h r hr
          · have hm := buildChqRecs_amounts bank yr d (m :: ms) ps' r hr
            have hsh := (scanPairs_shape line).2
            rw [hsp] at hsh
            exact hsh r.amount hm

theorem chqStep_amounts (bank : Str) (yr : Int) (st : ChqState) (line : Str)
    (h : ∀ r ∈ st.records, 0 ≤ r.amount) :
    ∀ r ∈ (chqStep bank yr st line).records, 0 ≤ r.amount := by
  intro r hr
  unfold chqStep at hr
  split at hr
  · exact h r hr
  · split at hr
    · exact h r hr
    · split at hr
      · exact h r hr
      · exact chqContent_amounts bank yr
          { st with currentDate := chqDateOf st (stripL line) }
          (chqRestOf (stripL line)) h r hr

theorem chqFold_amounts (bank : Str) (yr : Int) :
    ∀ (lines : List Str) (st : ChqState),
      (∀ r ∈ st.records, 0 ≤ r.amount) →
      ∀ r ∈ (lines.foldl (chqStep bank yr) st).records, 0 ≤ r.amount
  | [], _, h => h
  | line :: rest, st, h =>
    chqFold_amounts bank yr rest (chqStep bank yr st line)
      (chqStep_amounts bank yr st line h)

/-- **C4**: every TransactionRecord produced by the TD credit-card parser
(including its fallback path), by the columnar chequing parser, and by the
OCR fallback's row parser stores a non-negative amount; the source's sign
only ever drives the transaction_type field. -/
theorem c4_amounts_nonnegative :
    (∀ (lines : List Str) (nowYear : Int),
      ∀ r ∈ (parse_td_credit_card lines nowYear).records, 0 ≤ r.amount) ∧
    (∀ (bank : Str) (yr : Int) (lines : List Str),
      ∀ r ∈ (parse_td_chequing bank yr lines).records, 0 ≤ r.amount) ∧
    (∀ (text : Str) (r : OcrRec), parse_transaction_text text = some r →
      0 ≤ r.amount) := by
  refine ⟨?_, ?_, ?_⟩
  · intro lines nowYear r hr
    simp only [parse_td_credit_card] at hr
    exact (ccFold_preserves _ _ lines ⟨[], []⟩
      (fun r hr => absurd hr (List.not_mem_nil r)) r hr).2
  · intro bank yr lines r hr
    exact chqFold_amounts bank yr lines ⟨none, [], 0, false⟩
      (fun r hr => absurd hr (List.not_mem_nil r)) r hr
  · intro text r h
    unfold parse_transaction_text at h
    split at h
    · cases h; exact absQ_nonneg _
    · cases h

def exChqStarbucks : Str := "Jan 15 STARBUCKS COFFEE 4.50 4.50".toList
def exOcrText : Str := "01/02/2025 coffee shop -$4.50".toList
def exOcrDefault : OcrRec := ⟨[], [], 0, [], [], [], []⟩

set_option maxRecDepth 10000 in
/-- Witness for C4: concrete records of все three parsers. -/
theorem c4_amounts_nonnegative_witness :
    0 ≤ ((parse_td_credit_card exCCLines 2030).records.get ⟨0, by decide⟩).amount ∧
    0 ≤ ((parse_td_chequing bTD 2025 [exChqStarbucks]).records.get
        ⟨0, by decide⟩).amount ∧
    0 ≤ ((parse_transaction_text exOcrText).getD exOcrDefault).amount :=
  ⟨c4_amounts_nonnegative.1 exCCLines 2030 _ (List.get_mem _ _ _),
   c4_amounts_nonnegative.2.1 bTD 2025 [exChqStarbucks] _ (List.get_mem _ _ _),
   c4_amounts_nonnegative.2.2 exOcrText _ (by decide)⟩

def exJan5 : Str := "Jan 5".toList
def exJan15 : Str := "Jan 15".toList
def exClosingPairLine : Str := "closing balance 1,111.11 2,222.22".toList

/-- A chequing loop state with a date context already set and no records. -/
def exChqSt : ChqState := { currentDate := some exJan5, records := [], closing := 0, aborted := false }

set_option maxRecDepth 10000 in
/-- **C7 counterexample**: the line "closing balance 1,111.11 2,222.22"
contains one occurrence of the amount-pair pattern, yet the chequing parser
emits zero TransactionRecords for it: the closing-balance branch consumes
the line (setting the closing balance to the trailing number) before the
pair-splitting stage is reached. -/
theorem c7_counterexample_closing_line :
    (scanPairs exClosingPairLine).1.length = 1 ∧
    (chqStep bTD 2025 exChqSt exClosingPairLine).records.length = 0 ∧
    (chqStep bTD 2025 exChqSt exClosingPairLine).closing = moneyVal ("2,222".toList) ("22".toList) :=
  ⟨by decide, by decide, by decide⟩

set_option maxRecDepth 10000 in
/-- **C7 amended**: for every chequing line that actually reaches the
pair-splitting stage — the scan is not aborted, the stripped line is
nonempty, the closing-balance branch does not consume it, the post-date
remainder does not contain "opening balance", and a date context is set —
containing n ≥ 1 occurrences of the amount-pair pattern, the parser emits
exactly n TransactionRecords, pairing split fragment i with match i (the
amount being the first number of the pair) and dropping the final
trailing fragment. -/
theorem c7_pair_splitting (bank : Str) (yr : Int) (st : ChqState)
    (rawLine : Str) (d : Str)
    (hab : st.aborted = false)
    (hne : (stripL rawLine).isEmpty = false)
    (hcl : (if containsSub (toLowerL (stripL rawLine)) kClosingBalance
            then searchClosingAmt (stripL rawLine) else none) = none)
    (hop : containsSub (toLowerL (chqRestOf (stripL rawLine))) kOpeningBalance = false)
    (hcd : chqDateOf st (stripL rawLine) = some d)
    (hms : (scanPairs (chqRestOf (stripL rawLine))).1 ≠ []) :
    (chqStep bank yr st rawLine).records =
      st.records ++ buildChqRecs bank yr d
        (scanPairs (chqRestOf (stripL rawLine))).1
        (scanPairs (chqRestOf (stripL rawLine))).2 ∧
    (chqStep bank yr st rawLine).records.length =
      st.records.length + (scanPairs (chqRestOf (stripL rawLine))).1.length := by
  have hchq : chqStep bank yr st rawLine =
      chqContent bank yr { st with currentDate := chqDateOf st (stripL rawLine) }
        (chqRestOf (stripL rawLine)) := by
    unfold chqStep
    rw [if_neg (by simp [hab]), if_neg (by simp [hne]), hcl]
  have hrec : (chqStep bank yr st rawLine).records =
      st.records ++ buildChqRecs bank yr d
        (scanPairs (chqRestOf (stripL rawLine))).1
        (scanPairs (chqRestOf (stripL rawLine))).2 := by
    rw [hchq]
    unfold chqContent
    rw [if_neg (by simp [hop])]
    cases hsp : scanPairs (chqRestOf (stripL rawLine)) with
    | mk ms ps =>
      cases ms with
      | nil => rw [hsp] at hms; simp at hms
      | cons m ms2 =>
        simp only
        rw [hcd]
  refine ⟨hrec, ?_⟩
  rw [hrec]
  have hsh := (scanPairs_shape (chqRestOf (stripL rawLine))).1
  simp only [List.length_append, buildChqRecs, List.length_map, List.length_zip]
  omega

set_option maxRecDepth 10000 in
/-- Witness for C7: the amended statement instantiated on the spec's own
columnar example line "Jan 15 STARBUCKS COFFEE 4.50 4.50". -/
theorem c7_pair_splitting_witness :
    (chqStep bTD 2025 exChqSt exChqStarbucks).records =
      exChqSt.records ++ buildChqRecs bTD 2025 exJan15
        (scanPairs (chqRestOf (stripL exChqStarbucks))).1
        (scanPairs (chqRestOf (stripL exChqStarbucks))).2 ∧
    (chqStep bTD 2025 exChqSt exChqStarbucks).records.length =
      exChqSt.records.length + (scanPairs (chqRestOf (stripL exChqStarbucks))).1.length :=
  c7_pair_splitting bTD 2025 exChqSt exChqStarbucks exJan15 (by decide)
    (by decide) (by decide) (by decide) (by decide) (by decide)

-- ------------------------------------------------------------------
-- C6: per-statement reconciliation table (src/main.py:1551-1564)
-- ------------------------------------------------------------------

def bRBCName : Str := "RBC".toList

/-- A statement transaction as seen by the reconciliation table: only its
amount and its Debit/Credit type matter there. -/
structure STrans where
  amount : ℚ
  transaction_type : Str
deriving DecidableEq

/-- `sum(t.amount for t in statement_transactions if t.transaction_type == "Debit")`
(`src/main.py:1551-1552`). -/
def total_debits (ts : List STrans) : ℚ :=
  ((ts.filter (fun t => t.transaction_type = kDebit)).map (fun t => t.amount)).sum

/-- `sum(t.amount for t in statement_transactions if t.transaction_type == "Credit")`
(`src/main.py:1553-1554`). -/
def total_credits (ts : List STrans) : ℚ :=
  ((ts.filter (fun t => t.transaction_type = kCredit)).map (fun t => t.amount)).sum

/-- The closing-balance cross-check of the reconciliation table
(`src/main.py:1556-1562`): the additive convention is selected by
`bank == "TD" and statement_type == "Credit Card"`, all other combinations
use the deposit-account convention. -/
def calculated_closing (bank statement_type : Str) (opening : ℚ)
    (ts : List STrans) : ℚ :=
  if bank = bTD ∧ statement_type = sCreditCard then
    opening + total_debits ts - total_credits ts
  else opening - total_debits ts + total_credits ts

def exStmtTrans : List STrans := [⟨50, kDebit⟩, ⟨20, kCredit⟩]

/-- **C6 counterexample**: for a non-TD statement whose statement_type is
"Credit Card" (bank "RBC", opening 100, one 50 debit, one 20 credit) the
code computes 100 − 50 + 20 = 70, not the claimed opening + debits −
credits = 130: the credit-card convention is keyed on the bank being TD as
well, not on the statement_type alone. -/
theorem c6_counterexample_rbc_credit_card :
    calculated_closing bRBCName sCreditCard 100 exStmtTrans = 70 ∧
    100 + total_debits exStmtTrans - total_credits exStmtTrans = 130 ∧
    calculated_closing bRBCName sCreditCard 100 exStmtTrans ≠
      100 + total_debits exStmtTrans - total_credits exStmtTrans := by
  have hd : total_debits exStmtTrans = 50 := by
    simp [total_debits, exStmtTrans, kDebit, kCredit, List.filter]
  have hc : total_credits exStmtTrans = 20 := by
    simp [total_credits, exStmtTrans, kDebit, kCredit, List.filter]
  have hb : ¬ (bRBCName = bTD ∧ sCreditCard = sCreditCard) := by
    intro h
    exact absurd h.1 (by decide)
  refine ⟨?_, ?_, ?_⟩
  · rw [calculated_closing, if_neg hb, hd, hc]; norm_num
  · rw [hd, hc]; norm_num
  · rw [calculated_closing, if_neg hb, hd, hc]; norm_num

/-- **C6 amended**: the calculated closing balance of the reconciliation
display equals opening + total_debits − total_credits exactly when the
statement's bank is TD and its statement_type is "Credit Card"; every
other (bank, statement_type) combination uses opening − total_debits +
total_credits. -/
theorem c6_calculated_closing (bank stype : Str) (opening : ℚ)
    (ts : List STrans) :
    (bank = bTD ∧ stype = sCreditCard →
      calculated_closing bank stype opening ts =
        opening + total_debits ts - total_credits ts) ∧
    (¬ (bank = bTD ∧ stype = sCreditCard) →
      calculated_closing bank stype opening ts =
        opening - total_debits ts + total_credits ts) := by
  constructor <;> intro h <;> unfold calculated_closing
  · rw [if_pos h]
  · rw [if_neg h]

/-- Witness for C6: both branches of the amended statement at concrete
inputs. -/
theorem c6_calculated_closing_witness :
    calculated_closing bTD sCreditCard 100 exStmtTrans =
      100 + total_debits exStmtTrans - total_credits exStmtTrans ∧
    calculated_closing bRBCName sChequing 100 exStmtTrans =
      100 - total_debits exStmtTrans + total_credits exStmtTrans :=
  ⟨(c6_calculated_closing bTD sCreditCard 100 exStmtTrans).1 ⟨rfl, rfl⟩,
   (c6_calculated_closing bRBCName sChequing 100 exStmtTrans).2
     (by intro h; exact absurd h.1 (by decide))⟩
